import Mathlib

/-
  Verification development for the rad-security/mcp-server repository.

  Shallow embedding of the query-builder, error-enricher, batch-execution,
  resource-aggregation and workflow-polling logic of the repository
  (src/operations/radql.ts, src/operations/runtime.ts,
  src/operations/workflows.ts), together with theorems settling the
  specification claims about that logic.

  Conventions used throughout the embedding:
  - JavaScript optional / possibly-undefined values are modelled as Option.
  - JavaScript string falsiness (undefined, null and the empty string are
    falsy) is modelled by jsStrVal, which maps none and some "" to none.
  - Remote calls are modelled by passing the responses the code consumes as
    explicit arguments (the entries of a list call, a function from id to
    detail record, a list of successive poll results).
  - Thrown errors are modelled with Except or explicit error constructors.
-/

namespace RadSec

/-- JavaScript string truthiness: undefined and the empty string are falsy.
    Maps a possibly-absent string to none when it is falsy. -/
def jsStrVal : Option String → Option String
  | none => none
  | some s => if s = "" then none else some s

/-- JavaScript pattern (s or default) for strings: returns the default when
    the value is absent or empty. -/
def jsOrDefault (s : Option String) (d : String) : String :=
  match jsStrVal s with
  | some v => v
  | none => d

/-- JavaScript template interpolation of a possibly-undefined string:
    undefined renders as the text undefined. -/
def jsTemplateOpt : Option String → String
  | none => "undefined"
  | some s => s

/-- Whether the character list l starts with the character list p. -/
def listStartsWith : List Char → List Char → Bool
  | _, [] => true
  | [], _ :: _ => false
  | a :: as, b :: bs => a == b && listStartsWith as bs

/-- Whether the character list l contains sub as a contiguous sublist.
    Models the JavaScript String.prototype.includes method. -/
def listHasSub (sub : List Char) : List Char → Bool
  | [] => listStartsWith [] sub
  | l@(_ :: rest) => listStartsWith l sub || listHasSub sub rest

/-- JavaScript s.includes(sub) on strings. -/
def strIncludes (s sub : String) : Bool :=
  listHasSub sub.toList s.toList

/-- JavaScript s.includes(c) for a single-character needle. -/
def strHasChar (s : String) (c : Char) : Bool :=
  s.toList.contains c

/-! ## Async run poller (src/operations/workflows.ts, runWorkflow) -/

/-- Poll interval of the synchronous wait loop, in milliseconds. -/
def pollIntervalMs : Nat := 2000

/-- Maximum wall-clock wait budget of the synchronous wait loop,
    in milliseconds. -/
def maxWaitTimeMs : Nat := 300000

/-- Terminal run statuses recognised by the wait loop. -/
def isTerminalStatus (s : String) : Bool :=
  s == "completed" || s == "failed" || s == "cancelled"

/-- One poll of the workflow run endpoint: the status field the loop
    inspects, and the wall-clock milliseconds the poll call takes. -/
structure PollStep where
  status : String
  dur : Nat
deriving Repr, DecidableEq

/-- Result of runWorkflow in the embedding. -/
inductive RunResult where
  /-- The sync loop observed a terminal status and returned the run details. -/
  | finished (status : String)
  /-- The sync loop threw the did-not-finish timeout error; carries the last
      observed status and the elapsed milliseconds at the moment of the
      throw. -/
  | timedOut (lastStatus : String) (elapsed : Nat)
  /-- The supplied poll trace was exhausted before the loop exited; models an
      infinite wait, which the real loop cannot complete either without more
      poll responses. -/
  | noMorePolls
  /-- The async branch returned immediately with run_id and status running. -/
  | started (runId : String) (status : String)
  /-- A thrown error with its message. -/
  | failed (msg : String)
deriving Repr, DecidableEq

/-- The synchronous wait loop of runWorkflow. Each iteration consumes one
    poll result: the clock advances by the duration of the poll call, the
    terminal check runs first, then the elapsed-time check, then the loop
    sleeps pollIntervalMs and retries. Returns the outcome and the number of
    poll calls made. -/
def pollLoop (start : Nat) : List PollStep → Nat → RunResult × Nat
  | [], _ => (.noMorePolls, 0)
  | p :: rest, now =>
    let now1 := now + p.dur
    if isTerminalStatus p.status then
      (.finished p.status, 1)
    else if now1 - start > maxWaitTimeMs then
      (.timedOut p.status (now1 - start), 1)
    else
      let (r, n) := pollLoop start rest (now1 + pollIntervalMs)
      (r, n + 1)

/-- JSON schema attached to a workflow definition; properties map property
    names to an optional default value (payloads abstracted as strings). -/
structure WorkflowSchema where
  properties : Option (List (String × Option String))

/-- The flow object of a workflow definition. -/
structure WorkflowFlow where
  schema : Option WorkflowSchema

/-- A workflow definition as consumed by runWorkflow. -/
structure WorkflowDef where
  flow : Option WorkflowFlow

/-- Extract default values from a JSON schema
    (src/operations/workflows.ts, extractDefaultValues). -/
def extractDefaultValues (schema : WorkflowSchema) : List (String × String) :=
  match schema.properties with
  | none => []
  | some props => props.filterMap (fun kv =>
      match kv.2 with
      | some d => some (kv.1, d)
      | none => none)

/-- Response of the POST that starts a workflow run. -/
structure RunsResponse where
  id : Option String

/-- The runWorkflow operation (src/operations/workflows.ts). Arguments model
    the remote responses the code consumes: parentId is the parent_id of the
    account record (getTenantId), workflow is the workflow definition
    fetched next, startResp is the response of the POST that starts the run,
    and polls are the successive responses of the run-details endpoint with
    their durations. Returns the outcome and the number of poll calls made. -/
def runWorkflow (workflowId : String) (parentId : Option String)
    (workflow : Option WorkflowDef) (startResp : Option RunsResponse)
    (async : Bool) (polls : List PollStep) (startTime : Nat) :
    RunResult × Nat :=
  match jsStrVal parentId with
  | none => (.failed "No parent_id found for account", 0)
  | some _ =>
    let schemaOk : Bool :=
      match workflow with
      | none => false
      | some w =>
        match w.flow with
        | none => false
        | some f => f.schema.isSome
    if !schemaOk then
      (.failed ("Failed to get workflow schema for workflow " ++ workflowId), 0)
    else
      match jsStrVal (startResp.bind RunsResponse.id) with
      | none =>
        (.failed ("Failed to run workflow " ++ workflowId ++ ": no id in response"), 0)
      | some runId =>
        if async then
          (.started runId "running", 0)
        else
          pollLoop startTime polls startTime

/-! ## Condition and aggregation compiler (src/operations/radql.ts, buildRadQLQuery) -/

/-- A condition value: string, number or boolean. Numbers are modelled as
    integers; the builder only stringifies them, and no claim involves
    fractional values. -/
inductive RValue where
  | str (s : String)
  | num (n : Int)
  | bool (b : Bool)
deriving Repr, DecidableEq

/-- JavaScript String(value) for a condition value. -/
def RValue.render : RValue → String
  | .str s => s
  | .num n => toString n
  | .bool b => if b then "true" else "false"

/-- The condition operators accepted by the query-builder schema. -/
inductive ROp where
  | colon | eq | ne | notColon | diamond | gt | ge | lt | le
  | contains | startsWith | endsWith
deriving Repr, DecidableEq

/-- The textual form of a raw comparison operator. -/
def ROp.render : ROp → String
  | .colon => ":"
  | .eq => "="
  | .ne => "!="
  | .notColon => "!:"
  | .diamond => "<>"
  | .gt => ">"
  | .ge => ">="
  | .lt => "<"
  | .le => "<="
  | .contains => ":"
  | .startsWith => ":"
  | .endsWith => ":"

/-- A structured filter condition of the query builder. -/
structure RCondition where
  field : String
  op : ROp
  value : RValue
  negate : Option Bool
deriving Repr, DecidableEq

/-- The quoting test the builder applies to wildcard-operator values:
    quote only when the string value contains a hyphen, a space or a colon. -/
def wildcardNeedsQuoting : RValue → Bool
  | .str s => strHasChar s '-' || strHasChar s ' ' || strHasChar s ':'
  | _ => false

/-- The leading ISO-date test of the builder, the regex matching four
    digits, a hyphen, two digits, a hyphen and two digits at the start of
    the string. -/
def leadingDatePattern (s : String) : Bool :=
  match s.toList with
  | a :: b :: c :: d :: '-' :: e :: f :: '-' :: g :: h :: _ =>
    a.isDigit && b.isDigit && c.isDigit && d.isDigit &&
    e.isDigit && f.isDigit && g.isDigit && h.isDigit
  | _ => false

/-- The quoting test the builder applies to raw-operator string values:
    quote when the value contains a space, hyphen, colon or parenthesis,
    starts with a YYYY-MM-DD date, or contains a comparison glyph. -/
def rawNeedsQuoting (s : String) : Bool :=
  strHasChar s ' ' || strHasChar s '-' || strHasChar s ':' ||
  strHasChar s '(' || strHasChar s ')' ||
  leadingDatePattern s ||
  s.toList.any (fun c => c == '<' || c == '>' || c == '=' || c == '!')

/-- Render one condition to its RadQL text, as done inside buildRadQLQuery. -/
def renderCondition (cond : RCondition) : String :=
  let neg := if cond.negate == some true then "NOT " else ""
  let base := neg ++ cond.field
  match cond.op with
  | .contains =>
    let s := cond.value.render
    let valueStr :=
      if wildcardNeedsQuoting cond.value then "\"*" ++ s ++ "*\""
      else "*" ++ s ++ "*"
    base ++ ":" ++ valueStr
  | .startsWith =>
    let s := cond.value.render
    let valueStr :=
      if wildcardNeedsQuoting cond.value then "\"" ++ s ++ "*\""
      else s ++ "*"
    base ++ ":" ++ valueStr
  | .endsWith =>
    let s := cond.value.render
    let valueStr :=
      if wildcardNeedsQuoting cond.value then "\"*" ++ s ++ "\""
      else "*" ++ s
    base ++ ":" ++ valueStr
  | op =>
    let valueStr :=
      match cond.value with
      | .str s => if rawNeedsQuoting s then "\"" ++ s ++ "\"" else s
      | v => v.render
    base ++ op.render ++ valueStr

/-- Aggregation functions of the query-builder schema. -/
inductive AggFn where
  | count | sum | avg | min | max | median
deriving Repr, DecidableEq

/-- Textual name of an aggregation function. -/
def AggFn.render : AggFn → String
  | .count => "count"
  | .sum => "sum"
  | .avg => "avg"
  | .min => "min"
  | .max => "max"
  | .median => "median"

/-- Time-bucketing intervals of the query-builder schema. -/
inductive TimeGroup where
  | second | minute | hour | day | month | year
deriving Repr, DecidableEq

/-- Textual name of a time-bucketing interval. -/
def TimeGroup.render : TimeGroup → String
  | .second => "second"
  | .minute => "minute"
  | .hour => "hour"
  | .day => "day"
  | .month => "month"
  | .year => "year"

/-- Arguments of buildRadQLQuery (the RadQLQueryBuilderSchema shape); the
    logic combinator arrives with its schema default already applied. -/
structure BuilderArgs where
  data_type : String
  conditions : Option (List RCondition)
  logic : String
  aggregation : Option AggFn
  aggregate_field : Option String
  group_by : Option (List String)
  time_group : Option TimeGroup

/-- Render one group-by field, wrapping it in the time-bucketing function
    when time_group is set and the field name looks like a timestamp. -/
def renderGroupByField (tg : Option TimeGroup) (field : String) : String :=
  match tg with
  | some t =>
    if strIncludes field "_at" || strIncludes field "timestamp" ||
        strIncludes field "time" then
      t.render ++ "(" ++ field ++ ")"
    else field
  | none => field

/-- Build RadQL queries programmatically from structured conditions
    (src/operations/radql.ts, buildRadQLQuery). Returns the optional
    filters_query and stats_query, or the thrown validation-error message. -/
def buildRadQLQuery (args : BuilderArgs) :
    Except String (Option String × Option String) := do
  let filtersQuery : Option String :=
    match args.conditions with
    | some cs =>
      if cs.length > 0 then
        some (String.intercalate (" " ++ args.logic ++ " ")
          (cs.map renderCondition))
      else none
    | none => none
  let statsQuery : Option String ←
    match args.aggregation with
    | none => pure none
    | some fn => do
      let base : String ←
        match fn with
        | .count =>
          pure (match jsStrVal args.aggregate_field with
            | some f => "count(" ++ f ++ ")"
            | none => "count()")
        | _ =>
          match jsStrVal args.aggregate_field with
          | none => Except.error (fn.render ++ " requires an aggregate_field")
          | some f => pure (fn.render ++ "(" ++ f ++ ")")
      let withGroup :=
        match args.group_by with
        | some gb =>
          if gb.length > 0 then
            base ++ " by " ++
              String.intercalate ", " (gb.map (renderGroupByField args.time_group))
          else base
        | none => base
      pure (some withGroup)
  pure (filtersQuery, statsQuery)

/-! ## Batch query execution (src/operations/radql.ts, executeBatchQueries) -/

/-- One entry of the batch result list: either the normal payload of a
    query, or the error-and-query shape produced by the per-item catch. -/
inductive BatchEntry (Q P : Type) where
  | payload (p : P)
  | errEntry (error : String) (query : Q)
deriving Repr, DecidableEq

/-- Execute multiple RadQL queries (src/operations/radql.ts,
    executeBatchQueries): each query is executed independently and a
    failure is captured per item as the error-and-query shape; Promise.all
    preserves the input order, modelled by List.map. The executor exec
    abstracts executeRadQLQuery applied to the client. -/
def executeBatchQueries {Q P : Type} (exec : Q → Except String P)
    (queries : List Q) : List (BatchEntry Q P) :=
  queries.map (fun query =>
    match exec query with
    | .ok p => .payload p
    | .error e => .errEntry e query)

/-! ## Error enricher (src/operations/radql.ts, handleRadQLError) -/

/-- The raw error consumed by handleRadQLError: the optional message, the
    optional HTTP status of the attached response, the optional message of
    the response body, and the String(error) fallback rendering. -/
structure RawError where
  message : Option String
  status : Option Nat
  dataMessage : Option String
  strRepr : String
deriving Repr, DecidableEq

/-- The originalMsg computation of handleRadQLError: first truthy among
    error.message, the response body message, and String(error). -/
def originalMsgOf (e : RawError) : String :=
  match jsStrVal e.message with
  | some m => m
  | none =>
    match jsStrVal e.dataMessage with
    | some m => m
    | none => e.strRepr

/-- Whether a character list starts with a double quote, a hyphen, one or
    more digits and a closing double quote (the tail of the date-token
    regex of handleRadQLError). -/
def matchQuotedHyphenDigits : List Char → Bool
  | '"' :: '-' :: rest =>
    (match rest.dropWhile Char.isDigit with
      | '"' :: _ => !(rest.takeWhile Char.isDigit).isEmpty
      | _ => false)
  | _ => false

/-- Scan forward over non-newline characters looking for a position where p
    holds; models a dot-star regex segment, whose dot does not match line
    terminators. -/
def scanNoNewline (p : List Char → Bool) : List Char → Bool
  | [] => p []
  | l@(c :: rest) => p l || (c != '\n' && c != '\r' && scanNoNewline p rest)

/-- Try every start position for the literal unexpected-token prefix of the
    date-token regex, then look on the same line for a quoted hyphen-digits
    token. -/
def dateTokenScan : List Char → Bool
  | [] => false
  | l@(_ :: rest) =>
    (listStartsWith l ("unexpected token".toList) &&
      scanNoNewline matchQuotedHyphenDigits (l.drop 16)) ||
    dateTokenScan rest

/-- The date-token regex of handleRadQLError: unexpected token followed on
    the same line by a quoted hyphen-digits token. -/
def matchesDateTokenRegex (s : String) : Bool :=
  dateTokenScan s.toList

/-- Field-hint table appended by the parser-error unknown-field branch. -/
def parserFieldHints (dataType : Option String) : String :=
  match dataType with
  | some "containers" =>
    "Common container fields:\n" ++
    "  Filterable: name, image_name, image_repo, owner_kind\n" ++
    "  All: id, cluster_id, image_tag, created_at\n\n"
  | some "finding_groups" =>
    "Common finding_groups fields:\n" ++
    "  Filterable: type, severity, source_kind, source_name, rule_title\n" ++
    "  All: group_id, severity, rule_id, event_timestamp\n\n"
  | some "inbox_items" =>
    "Common inbox_items fields:\n" ++
    "  severity (High|Medium|Low), type, title, archived, false_positive, created_at\n\n"
  | _ => ""

/-- Field-hint table appended by the standalone unknown-field branch. -/
def unknownFieldHints (dataType : Option String) : String :=
  match dataType with
  | some "containers" =>
    "Common container fields (quick reference):\n" ++
    "  Filterable: name, image_name, image_repo, owner_kind\n" ++
    "  All: id, cluster_id, image_tag, created_at\n\n"
  | some "finding_groups" =>
    "Common finding_groups fields (quick reference):\n" ++
    "  Filterable: type, source_kind, source_name, source_namespace, rule_title\n" ++
    "  All: group_id, severity, rule_id, event_timestamp\n\n"
  | some "inbox_items" =>
    "Common inbox_items fields (quick reference):\n" ++
    "  severity (High|Medium|Low), type, title, archived, false_positive, created_at\n\n"
  | _ => ""

/-- Minimal JSON string escaping, covering the characters that can occur in
    the message fields serialised by handleRadQLError. -/
def jsonEscape (s : String) : String :=
  s.toList.foldr (fun c acc =>
    (match c with
      | '"' => "\\\""
      | '\\' => "\\\\"
      | '\n' => "\\n"
      | c => String.singleton c) ++ acc) ""

/-- The JSON.stringify(details, null, 2) blob of the generic 400 branch:
    an object with original_error, next_step and, when defined, data_type,
    rendered with two-space indentation; undefined fields are omitted. -/
def detailsBlob (originalMsg : String) (dataType : Option String) : String :=
  "\x7b\n  \"original_error\": \"" ++ jsonEscape originalMsg ++ "\",\n" ++
  "  \"next_step\": \"" ++
    jsonEscape ("Call radql_get_type_metadata with data_type=\"" ++
      jsTemplateOpt dataType ++ "\" for field list and examples") ++ "\"" ++
  (match dataType with
    | some d => ",\n  \"data_type\": \"" ++ jsonEscape d ++ "\""
    | none => "") ++
  "\n\x7d"

/-- Enriched error handling for RadQL queries (src/operations/radql.ts,
    handleRadQLError). Sum.inl is the original error returned unchanged;
    Sum.inr is a freshly constructed Error with the given message. -/
def handleRadQLError (e : RawError) (dataType : Option String) :
    RawError ⊕ String :=
  let originalMsg := originalMsgOf e
  if e.status = some 400 then
    if strIncludes originalMsg "unexpected token" ||
        strIncludes originalMsg "invalid query" then
      if matchesDateTokenRegex originalMsg then
        Sum.inr ("RadQL Parser Error\n\n" ++
          "ISSUE: Unquoted date or hyphenated value detected\n" ++
          "SOLUTION: Dates and values with hyphens MUST be quoted\n\n" ++
          "Examples:\n" ++
          "  INCORRECT: created_at>2024-01-01\n" ++
          "  CORRECT:   created_at>\"2024-01-01\"\n\n" ++
          "  INCORRECT: id:abc-123-def\n" ++
          "  CORRECT:   id:\"abc-123-def\"\n\n" ++
          "Original error: " ++ originalMsg)
      else if strIncludes originalMsg "unknown field" ||
          strIncludes originalMsg "not found" then
        Sum.inr ("RadQL Parser Error\n\n" ++
          "ISSUE: Unknown or misspelled field name\n" ++
          "SOLUTION: Call radql_get_type_metadata with data_type=\"" ++
          jsOrDefault dataType "your_type" ++
          "\" to see all available fields\n\n" ++
          parserFieldHints dataType ++
          "Original error: " ++ originalMsg)
      else
        Sum.inr ("RadQL Parser Error\n\n" ++
          "ISSUE: Invalid query syntax\n" ++
          "COMMON SOLUTIONS:\n" ++
          "  1. Quote dates: created_at>\"2024-01-01\"\n" ++
          "  2. Quote UUIDs: id:\"abc-123-def\"\n" ++
          "  3. Quote special chars: title:\"my value\"\n" ++
          "  4. Verify fields: radql_get_type_metadata (data_type=\"" ++
          jsTemplateOpt dataType ++ "\")\n\n" ++
          "Original error: " ++ originalMsg)
    else if strIncludes originalMsg "unknown field" ||
        (strIncludes originalMsg "field" && strIncludes originalMsg "not found") then
      Sum.inr ("Unknown Field Error\n\n" ++
        "NEXT STEP: Call radql_get_type_metadata with data_type=\"" ++
        jsTemplateOpt dataType ++ "\" for complete field list\n\n" ++
        unknownFieldHints dataType ++
        "Original error: " ++ originalMsg)
    else
      Sum.inr ("Invalid RadQL query syntax" ++ "\n\n" ++
        detailsBlob originalMsg dataType)
  else if e.status = some 404 then
    Sum.inr ("Data type '" ++ jsTemplateOpt dataType ++ "' not found\n\n" ++
      "NEXT STEP: Call radql_list_data_types to see all available types\n\n" ++
      "Common types: containers, finding_groups, inbox_items, kubernetes_resources")
  else if e.status = some 401 then
    Sum.inr ("Authentication failed\n\n" ++
      "VERIFY: RAD Security API credentials are set (BASE_URL and BEARER_TOKEN)")
  else if e.status = some 403 then
    Sum.inr ("Access denied to data type '" ++ jsTemplateOpt dataType ++ "'\n\n" ++
      "VERIFY: Account permissions or call radql_list_data_types to confirm type exists")
  else
    Sum.inl e

/-! ## Process tree reducer (src/operations/runtime.ts, reduceProcesses) -/

/-- A program attached to a process node. -/
structure RtProgram where
  comm : Option String
  args : Option (List String)
deriving Repr, DecidableEq

/-- A network connection attached to a process node. -/
structure RtConnection where
  hostname : Option String
  address : Option String
  port : Option String
  timestamp : Option String
deriving Repr, DecidableEq

/-- A node of the process tree consumed by reduceProcesses; every field is
    optional, matching the loosely typed JSON the code walks. -/
inductive Process where
  | node (timestamp : Option String) (programs : Option (List RtProgram))
      (connections : Option (List RtConnection))
      (children : Option (List Process))
deriving Repr

/-- The formatted line for one program of a process. -/
def programLine (indent timestamp : String) (pg : RtProgram) : String :=
  indent ++ "├─ [" ++ timestamp ++ "] " ++ jsOrDefault pg.comm "unknown" ++
    ": " ++ String.intercalate " " (pg.args.getD [])

/-- The formatted line for one connection of a process. -/
def connectionLine (indent : String) (conn : RtConnection) : String :=
  let addr :=
    match jsStrVal conn.hostname with
    | some h => h
    | none => jsOrDefault conn.address "unknown"
  indent ++ "│  └─ Connection to " ++ addr ++ ":" ++
    jsOrDefault conn.port "unknown" ++ " at " ++ jsOrDefault conn.timestamp ""

mutual

/-- Count one node and all of its descendants (the countProcesses closure of
    reduceProcesses, per element). -/
def countProcess : Process → Nat
  | .node _ _ _ none => 1
  | .node _ _ _ (some cs) => 1 + countProcesses cs

/-- The unbounded full-tree node count (the countProcesses closure of
    reduceProcesses). -/
def countProcesses : List Process → Nat
  | [] => 0
  | p :: ps => countProcess p + countProcesses ps

end

mutual

/-- The for-loop of the extractProcessTree closure: result is the lines
    already pushed in the current frame; the loop breaks before a node when
    that many lines meet the remaining limit. -/
def extractLoop : List Process → String → Int → List String → List String
  | [], _, _, result => result
  | p :: ps, indent, remainingLimit, result =>
    if (result.length : Int) ≥ remainingLimit then result
    else extractLoop ps indent remainingLimit
      (extractNode p indent remainingLimit result)

/-- The body of the extractProcessTree loop for one node: push one line per
    program, one line per connection, then recurse into the children with
    the budget reduced by the lines pushed so far in this frame. -/
def extractNode : Process → String → Int → List String → List String
  | .node ts programs connections children, indent, remainingLimit, result =>
    let timestamp := jsOrDefault ts ""
    let result1 :=
      match programs with
      | some pgs => result ++ pgs.map (programLine indent timestamp)
      | none => result
    let result2 :=
      match connections with
      | some cs => result1 ++ cs.map (connectionLine indent)
      | none => result1
    match children with
    | some cs =>
      result2 ++ extractLoop cs (indent ++ "│  ")
        (remainingLimit - (result2.length : Int)) []
    | none => result2

end

/-- The extractProcessTree closure of reduceProcesses: each call frame
    starts with an empty result list. -/
def extractProcessTree (procs : List Process) (indent : String)
    (remainingLimit : Int) : List String :=
  extractLoop procs indent remainingLimit []

/-- The truncation notice appended when the extracted tree reached the
    limit. -/
def truncationNotice (limit : Int) (total : Nat) : String :=
  "Processes limit(" ++ toString limit ++
    ") reached. Some processes were not included in the output. Total processes: "
    ++ toString total

/-- Reduce a process tree to at most roughly limit formatted lines
    (src/operations/runtime.ts, reduceProcesses). -/
def reduceProcesses (processes : List Process) (limit : Int) : List String :=
  if processes.length = 0 ∨ limit ≤ 0 then []
  else
    let tree := extractProcessTree processes "" limit
    if (tree.length : Int) ≥ limit then
      tree ++ [truncationNotice limit (countProcesses processes)]
    else tree

mutual

/-- The number of program plus connection lines one node itself pushes. -/
def nodeBatch : Process → Nat
  | .node _ programs connections _ =>
    (match programs with | some l => l.length | none => 0) +
    (match connections with | some l => l.length | none => 0)

/-- Largest per-node line batch over a node and all of its descendants. -/
def maxBatchProcess : Process → Nat
  | .node ts programs connections children =>
    Nat.max (nodeBatch (.node ts programs connections children))
      (match children with
        | some cs => maxBatchList cs
        | none => 0)

/-- Largest per-node line batch over a forest. -/
def maxBatchList : List Process → Nat
  | [] => 0
  | p :: ps => Nat.max (maxBatchProcess p) (maxBatchList ps)

end

/-! ## Resource aggregators (src/operations/runtime.ts) -/

/-- The container_meta object nested in an insight summary. -/
structure ContainerMeta where
  container_id : Option String
deriving Repr, DecidableEq

/-- The summary object of a container runtime insight. -/
structure CriSummary where
  container_meta : Option ContainerMeta
deriving Repr, DecidableEq

/-- One entry of the container runtime insights list response. -/
structure CriEntry where
  id : String
  summary : Option CriSummary
deriving Repr, DecidableEq

/-- The optional-chained container id of an insight entry
    (entry.summary, then container_meta, then container_id). -/
def CriEntry.containerId (e : CriEntry) : Option String :=
  e.summary.bind (fun s => s.container_meta.bind (fun m => m.container_id))

/-- A container record inside the ongoing section of a detail response;
    only the process list is consumed by the code. -/
structure RtContainer where
  processes : List Process
deriving Repr

/-- The ongoing section of a detail response. -/
structure Ongoing where
  containers : Option (List RtContainer)
deriving Repr

/-- The detail response for one insight id: an optional baseline payload
    (abstracted as a string) and the optional ongoing section. -/
structure CriDetail where
  baseline : Option String
  ongoing : Option Ongoing
deriving Repr

/-- The per-entry loop of getContainersBaselines. Returns the list of
    insight ids for which a detail call was issued, and the result map as an
    association list in insertion order. Entries whose container id is falsy
    or not among the requested ids are skipped without a detail fetch; a
    fetched detail without a baseline only logs a warning and adds nothing. -/
def baselinesLoop (detail : String → CriDetail) (containerIds : List String) :
    List CriEntry → List String × List (String × String)
  | [] => ([], [])
  | entry :: rest =>
    match jsStrVal entry.containerId with
    | none => baselinesLoop detail containerIds rest
    | some containerId =>
      if containerIds.contains containerId then
        let data := detail entry.id
        let tail := baselinesLoop detail containerIds rest
        match jsStrVal data.baseline with
        | some b => (entry.id :: tail.1, (containerId, b) :: tail.2)
        | none => (entry.id :: tail.1, tail.2)
      else baselinesLoop detail containerIds rest

/-- Get runtime baselines for multiple containers (src/operations/runtime.ts,
    getContainersBaselines). The list response is passed as crisEntries
    (none when the response has no entries field) and the per-id detail
    fetch as detail. Returns the detail calls issued and the outcome. -/
def getContainersBaselines (containerIds : List String)
    (crisEntries : Option (List CriEntry)) (detail : String → CriDetail) :
    List String × Except String (List (String × String)) :=
  if containerIds.length = 0 then
    ([], .error "No container IDs provided")
  else
    match crisEntries with
    | none =>
      ([], .error ("No process trees found for container_ids: " ++
        String.intercalate "," containerIds))
    | some entries =>
      let r := baselinesLoop detail containerIds entries
      if r.2.length = 0 then
        (r.1, .error ("No baselines found for any of the container_ids: " ++
          String.intercalate "," containerIds))
      else (r.1, .ok r.2)

/-- The value stored per insight id by getContainersProcessTrees: an empty
    placeholder when the detail has no ongoing containers, or the first
    ongoing container with its processes replaced by the reduced lines. -/
inductive PTValue where
  | empty
  | reduced (c : RtContainer) (lines : List String)
deriving Repr

/-- The per-entry loop of getContainersProcessTrees: a detail call is issued
    for every insight of the list response, and the result is keyed by the
    insight id. -/
def processTreesLoop (detail : String → CriDetail) (limit : Int) :
    List CriEntry → List String × List (String × PTValue)
  | [] => ([], [])
  | cri :: rest =>
    let data := detail cri.id
    let tail := processTreesLoop detail limit rest
    let v : PTValue :=
      match data.ongoing with
      | none => .empty
      | some og =>
        match og.containers with
        | none => .empty
        | some [] => .empty
        | some (c0 :: _) => .reduced c0 (reduceProcesses c0.processes limit)
    (cri.id :: tail.1, (cri.id, v) :: tail.2)

/-- Get process trees for multiple containers (src/operations/runtime.ts,
    getContainersProcessTrees). crisEntries is the entries field of the list
    response; when it is absent the for-of loop of the source crashes with a
    TypeError, modelled as an error outcome. Returns the detail calls issued
    and the outcome. -/
def getContainersProcessTrees (containerIds : List String)
    (crisEntries : Option (List CriEntry)) (detail : String → CriDetail)
    (processesLimit : Int) :
    List String × Except String (List (String × PTValue)) :=
  if containerIds.length = 0 then
    ([], .error "No container IDs provided")
  else
    match crisEntries with
    | none => ([], .error "TypeError: cris.entries is not iterable")
    | some entries =>
      let r := processTreesLoop detail processesLimit entries
      (r.1, .ok r.2)

/-- The program and connection lines one node pushes for itself, before
    recursing into its children; used to state the length bound of the
    extraction. -/
def nodeOwnLines (indent : String) (ts : Option String)
    (pgs : Option (List RtProgram)) (cns : Option (List RtConnection)) :
    List String :=
  (match pgs with
    | some l => l.map (programLine indent (jsOrDefault ts ""))
    | none => []) ++
  (match cns with
    | some l => l.map (connectionLine indent)
    | none => [])

/-! ## Theorems -/

/-- Helper: characterization of a timed-out pollLoop run. The loop enters an
    iteration with now at most maxWaitTimeMs plus pollIntervalMs past start;
    a timeout outcome carries a non-terminal status read from one of the
    polls, happens strictly past the budget, and exceeds it by at most one
    poll duration plus one sleep interval. -/
theorem pollLoop_timedOut_spec (start : Nat) :
    ∀ (polls : List PollStep) (now : Nat) (s : String) (e n : Nat),
    start ≤ now → now - start ≤ maxWaitTimeMs + pollIntervalMs →
    pollLoop start polls now = (.timedOut s e, n) →
    isTerminalStatus s = false ∧
    (∃ p ∈ polls, p.status = s ∧ e ≤ maxWaitTimeMs + pollIntervalMs + p.dur) ∧
    maxWaitTimeMs < e ∧ 1 ≤ n := by
  intro polls
  induction polls with
  | nil =>
    intro now s e n _ _ h
    simp [pollLoop] at h
  | cons p rest ih =>
    intro now s e n hle hgap h
    rw [pollLoop] at h
    by_cases hterm : isTerminalStatus p.status
    · simp [hterm] at h
    · simp only [hterm, if_false, Bool.false_eq_true] at h
      by_cases htime : now + p.dur - start > maxWaitTimeMs
      · rw [if_pos htime] at h
        obtain ⟨h1, h2⟩ := Prod.mk.injEq .. ▸ h
        obtain ⟨hs, he⟩ := RunResult.timedOut.injEq .. ▸ h1
        subst hs he h2
        refine ⟨by simpa using hterm, ⟨p, by simp, rfl, ?_⟩, htime, le_refl 1⟩
        omega
      · rw [if_neg htime] at h
        cases hrec : pollLoop start rest (now + p.dur + pollIntervalMs) with
        | mk r n' =>
          rw [hrec] at h
          obtain ⟨h1, h2⟩ := Prod.mk.injEq .. ▸ h
          subst h1 h2
          have := ih (now + p.dur + pollIntervalMs) s e n' (by omega) (by omega) hrec
          obtain ⟨ht, ⟨q, hq, hqs, hqe⟩, hlt, hn⟩ := this
          exact ⟨ht, ⟨q, by simp [hq], hqs, hqe⟩, hlt, by omega⟩

/-- C7: in the async run poller, a start response without an id fails with
    the no-id-in-response error and zero poll calls, and async mode returns
    immediately with run_id and status running and zero poll calls. -/
theorem runWorkflow_no_id_and_async_no_poll :
    ∀ (workflowId parentId : String) (wf : WorkflowDef) (polls : List PollStep)
      (t : Nat) (async : Bool),
    parentId ≠ "" →
    (∃ f, wf.flow = some f ∧ f.schema.isSome = true) →
    (runWorkflow workflowId (some parentId) (some wf) (some ⟨none⟩) async polls t =
      (.failed ("Failed to run workflow " ++ workflowId ++ ": no id in response"), 0)) ∧
    (∀ runId : String, runId ≠ "" →
      runWorkflow workflowId (some parentId) (some wf) (some ⟨some runId⟩) true polls t =
        (.started runId "running", 0)) := by
  intro wid pid wf polls t async hp hw
  obtain ⟨f, hf, hs⟩ := hw
  constructor
  · simp [runWorkflow, jsStrVal, hp, hf, hs]
  · intro runId hr
    simp [runWorkflow, jsStrVal, hp, hf, hs, hr]

/-- Witness for runWorkflow_no_id_and_async_no_poll at a concrete workflow,
    start response and poll trace. -/
theorem runWorkflow_no_id_and_async_no_poll_witness :
    (runWorkflow "w" (some "t") (some ⟨some ⟨some ⟨none⟩⟩⟩) (some ⟨none⟩) false
        [⟨"running", 1⟩] 0 =
      (.failed "Failed to run workflow w: no id in response", 0)) ∧
    (runWorkflow "w" (some "t") (some ⟨some ⟨some ⟨none⟩⟩⟩) (some ⟨some "r"⟩) true
        [⟨"running", 1⟩] 0 =
      (.started "r" "running", 0)) := by
  have h := runWorkflow_no_id_and_async_no_poll "w" "t" ⟨some ⟨some ⟨none⟩⟩⟩
    [⟨"running", 1⟩] 0 false (by decide) ⟨⟨some ⟨none⟩⟩, rfl, rfl⟩
  exact ⟨h.1, h.2 "r" (by decide)⟩

/-- C10: a timeout outcome of the synchronous wait loop of runWorkflow
    presupposes at least one poll call; the timeout carries a non-terminal
    status read from one of the polls, the elapsed time at the throw is
    strictly beyond the 300000 ms budget, and it exceeds the budget by at
    most one poll duration plus the 2000 ms sleep interval; moreover a
    concrete trace realises an overshoot. -/
theorem runWorkflow_timeout_spec :
    (∀ (workflowId : String) (parentId : Option String)
       (workflow : Option WorkflowDef) (startResp : Option RunsResponse)
       (polls : List PollStep) (t : Nat) (s : String) (e n : Nat),
      runWorkflow workflowId parentId workflow startResp false polls t =
        (.timedOut s e, n) →
      isTerminalStatus s = false ∧ 1 ≤ n ∧
      (∃ p ∈ polls, p.status = s ∧ e ≤ maxWaitTimeMs + pollIntervalMs + p.dur) ∧
      maxWaitTimeMs < e) ∧
    runWorkflow "w" (some "t") (some ⟨some ⟨some ⟨none⟩⟩⟩) (some ⟨some "r"⟩) false
        [⟨"running", 301000⟩] 0 = (.timedOut "running" 301000, 1) ∧
    maxWaitTimeMs < 301000 := by
  refine ⟨?_, by decide, by decide⟩
  intro wid pid wf sr polls t s e n h
  unfold runWorkflow at h
  cases hpid : jsStrVal pid with
  | none => rw [hpid] at h; simp at h
  | some v =>
    rw [hpid] at h
    simp only at h
    split at h
    · simp at h
    · cases hid : jsStrVal (sr.bind RunsResponse.id) with
      | none => rw [hid] at h; simp at h
      | some runId =>
        rw [hid] at h
        simp only [Bool.false_eq_true, if_false] at h
        have := pollLoop_timedOut_spec t polls t s e n (le_refl t) (by omega) h
        exact ⟨this.1, this.2.2.2, this.2.1, this.2.2.1⟩

/-- Witness for runWorkflow_timeout_spec: instantiating the universal part
    at the concrete timed-out trace established by its own second conjunct. -/
theorem runWorkflow_timeout_spec_witness :
    isTerminalStatus "running" = false ∧ 1 ≤ 1 ∧
    (∃ p ∈ [PollStep.mk "running" 301000], p.status = "running" ∧
      301000 ≤ maxWaitTimeMs + pollIntervalMs + p.dur) ∧
    maxWaitTimeMs < 301000 :=
  runWorkflow_timeout_spec.1 "w" (some "t") (some ⟨some ⟨some ⟨none⟩⟩⟩)
    (some ⟨some "r"⟩) [⟨"running", 301000⟩] 0 "running" 301000 1
    runWorkflow_timeout_spec.2.1

/-- C6: batch query execution returns one entry per query in the same order:
    the entry at index i is the normal payload of the i-th query when its
    execution succeeds and the error-and-query shape when it throws, so one
    query never aborts or alters the others. -/
theorem executeBatchQueries_settle_all :
    ∀ {Q P : Type} (exec : Q → Except String P) (queries : List Q),
    (executeBatchQueries exec queries).length = queries.length ∧
    (∀ (i : Nat) (q : Q), queries[i]? = some q →
      (executeBatchQueries exec queries)[i]? =
        some (match exec q with
          | .ok p => .payload p
          | .error err => .errEntry err q)) := by
  intro Q P exec queries
  constructor
  · simp [executeBatchQueries]
  · intro i q hq
    simp [executeBatchQueries, List.getElem?_map, hq]

/-- Witness for executeBatchQueries_settle_all: a batch of three queries in
    which the middle one throws yields three entries, the failing one as the
    error-and-query shape and the other two as normal payloads. -/
theorem executeBatchQueries_settle_all_witness :
    (executeBatchQueries
        (fun q : String => if q = "bad" then Except.error "boom" else Except.ok q)
        ["a", "bad", "c"]).length = 3 ∧
    (executeBatchQueries
        (fun q : String => if q = "bad" then Except.error "boom" else Except.ok q)
        ["a", "bad", "c"])[1]? = some (.errEntry "boom" "bad") ∧
    (executeBatchQueries
        (fun q : String => if q = "bad" then Except.error "boom" else Except.ok q)
        ["a", "bad", "c"])[0]? = some (.payload "a") ∧
    (executeBatchQueries
        (fun q : String => if q = "bad" then Except.error "boom" else Except.ok q)
        ["a", "bad", "c"])[2]? = some (.payload "c") := by
  have h := executeBatchQueries_settle_all
    (fun q : String => if q = "bad" then Except.error "boom" else Except.ok q)
    ["a", "bad", "c"]
  refine ⟨h.1, ?_, ?_, ?_⟩
  · have := h.2 1 "bad" rfl
    simpa using this
  · have := h.2 0 "a" rfl
    simpa using this
  · have := h.2 2 "c" rfl
    simpa using this

/-- C8: compiling an aggregation whose function is not count and whose field
    is absent fails with the requires-an-aggregate-field validation error;
    count with no field renders count() and count with a nonempty field f
    renders count(f). -/
theorem buildRadQLQuery_aggregation_spec :
    ∀ (dt logic : String) (fn : AggFn) (f : String),
    (fn ≠ .count →
      buildRadQLQuery ⟨dt, none, logic, some fn, none, none, none⟩ =
        .error (fn.render ++ " requires an aggregate_field")) ∧
    buildRadQLQuery ⟨dt, none, logic, some .count, none, none, none⟩ =
      .ok (none, some "count()") ∧
    (f ≠ "" →
      buildRadQLQuery ⟨dt, none, logic, some .count, some f, none, none⟩ =
        .ok (none, some ("count(" ++ f ++ ")"))) := by
  intro dt logic fn f
  refine ⟨?_, ?_, ?_⟩
  · intro hfn
    cases fn <;> simp_all [buildRadQLQuery, jsStrVal, Bind.bind, Except.bind, pure, Except.pure]
  · simp [buildRadQLQuery, jsStrVal, Bind.bind, Except.bind, pure, Except.pure]
  · intro hf
    simp [buildRadQLQuery, jsStrVal, hf, Bind.bind, Except.bind, pure, Except.pure]

/-- Witness for buildRadQLQuery_aggregation_spec at function avg and
    field cpu. -/
theorem buildRadQLQuery_aggregation_spec_witness :
    buildRadQLQuery ⟨"containers", none, "AND", some .avg, none, none, none⟩ =
      .error "avg requires an aggregate_field" ∧
    buildRadQLQuery ⟨"containers", none, "AND", some .count, none, none, none⟩ =
      .ok (none, some "count()") ∧
    buildRadQLQuery ⟨"containers", none, "AND", some .count, some "cpu", none, none⟩ =
      .ok (none, some "count(cpu)") := by
  have h := buildRadQLQuery_aggregation_spec "containers" "AND" .avg "cpu"
  exact ⟨h.1 (by decide), h.2.1, h.2.2 (by decide)⟩

/-- C9: the error enricher is a total function into error values (it either
    passes the original error through or constructs a fresh message), and
    for every error whose attached HTTP status is none of 400, 404, 401 and
    403 it returns the original error unchanged. -/
theorem handleRadQLError_total_and_passthrough :
    ∀ (e : RawError) (dt : Option String),
    (handleRadQLError e dt = Sum.inl e ∨
      ∃ m, handleRadQLError e dt = Sum.inr m) ∧
    (e.status ≠ some 400 → e.status ≠ some 404 → e.status ≠ some 401 →
      e.status ≠ some 403 → handleRadQLError e dt = Sum.inl e) := by
  intro e dt
  constructor
  · unfold handleRadQLError
    dsimp only
    repeat' split
    all_goals first
      | exact Or.inl rfl
      | exact Or.inr ⟨_, rfl⟩
  · intro h400 h404 h401 h403
    simp [handleRadQLError, h400, h404, h401, h403]

/-- Witness for handleRadQLError_total_and_passthrough at a status-500
    error. -/
theorem handleRadQLError_total_and_passthrough_witness :
    handleRadQLError ⟨some "boom", some 500, none, "Error: boom"⟩ none =
      Sum.inl ⟨some "boom", some 500, none, "Error: boom"⟩ :=
  (handleRadQLError_total_and_passthrough
      ⟨some "boom", some 500, none, "Error: boom"⟩ none).2
    (by decide) (by decide) (by decide) (by decide)

/-- C4 counterexample: a contains condition whose string value holds a
    parenthesis is emitted without any double quote, contradicting the
    claimed quoting rule for wildcard operators. -/
theorem renderCondition_paren_value_unquoted :
    renderCondition ⟨"image_name", .contains, .str "a(b)", none⟩ = "image_name:*a(b)*" ∧
    strHasChar "a(b)" '(' = true ∧
    strHasChar "image_name:*a(b)*" '"' = false := ⟨rfl, rfl, rfl⟩

/-- C4 amended: for the wildcard operators contains, starts_with and
    ends_with, the wildcard-wrapped literal is wrapped in double quotes
    exactly when the string value contains a hyphen, a space or a colon;
    parentheses, comparison glyphs and leading dates do not trigger quoting
    for these operators; and contains on value nginx with field image_name
    renders exactly image_name:*nginx*. -/
theorem renderCondition_wildcard_quoting :
    ∀ (f v : String),
    ((strHasChar v '-' || strHasChar v ' ' || strHasChar v ':') = true →
      renderCondition ⟨f, .contains, .str v, none⟩ = f ++ ":\"*" ++ v ++ "*\"" ∧
      renderCondition ⟨f, .startsWith, .str v, none⟩ = f ++ ":\"" ++ v ++ "*\"" ∧
      renderCondition ⟨f, .endsWith, .str v, none⟩ = f ++ ":\"*" ++ v ++ "\"") ∧
    ((strHasChar v '-' || strHasChar v ' ' || strHasChar v ':') = false →
      renderCondition ⟨f, .contains, .str v, none⟩ = f ++ ":*" ++ v ++ "*" ∧
      renderCondition ⟨f, .startsWith, .str v, none⟩ = f ++ ":" ++ v ++ "*" ∧
      renderCondition ⟨f, .endsWith, .str v, none⟩ = f ++ ":*" ++ v) ∧
    renderCondition ⟨"image_name", .contains, .str "nginx", none⟩ = "image_name:*nginx*" := by
  intro f v
  refine ⟨?_, ?_, rfl⟩
  · intro h
    refine ⟨?_, ?_, ?_⟩ <;>
    · simp [renderCondition, wildcardNeedsQuoting, RValue.render, h, String.empty_append,
        String.append_assoc]
      exact congrArg _ rfl
  · intro h
    refine ⟨?_, ?_, ?_⟩ <;>
    · simp [renderCondition, wildcardNeedsQuoting, RValue.render, h, String.empty_append,
        String.append_assoc]
      try exact congrArg _ rfl

/-- Witness for renderCondition_wildcard_quoting at a hyphenated value and
    at a plain alphanumeric value. -/
theorem renderCondition_wildcard_quoting_witness :
    renderCondition ⟨"f", .contains, .str "a-b", none⟩ = "f" ++ ":\"*" ++ "a-b" ++ "*\"" ∧
    renderCondition ⟨"f", .contains, .str "nginx", none⟩ = "f" ++ ":*" ++ "nginx" ++ "*" :=
  ⟨((renderCondition_wildcard_quoting "f" "a-b").1 (by decide)).1,
   ((renderCondition_wildcard_quoting "f" "nginx").2.1 (by decide)).1⟩

/-- Helper: extraction for one node decomposes into the lines already in the
    frame, the lines of the node itself, and the lines of its child frame. -/
theorem extractNode_eq (ts : Option String) (pgs : Option (List RtProgram))
    (cns : Option (List RtConnection)) (children : Option (List Process))
    (indent : String) (rl : Int) (result : List String) :
    extractNode (.node ts pgs cns children) indent rl result =
      result ++ nodeOwnLines indent ts pgs cns ++
        (match children with
          | some cs => extractLoop cs (indent ++ "│  ")
              (rl - ((result ++ nodeOwnLines indent ts pgs cns).length : Int)) []
          | none => []) := by
  cases pgs <;> cases cns <;> cases children <;>
    simp [extractNode, nodeOwnLines, List.append_assoc]

/-- Helper: the lines a node pushes for itself number exactly its batch. -/
theorem nodeOwnLines_length (indent : String) (ts : Option String)
    (pgs : Option (List RtProgram)) (cns : Option (List RtConnection))
    (children : Option (List Process)) :
    (nodeOwnLines indent ts pgs cns).length =
      nodeBatch (.node ts pgs cns children) := by
  cases pgs <;> cases cns <;> simp [nodeOwnLines, nodeBatch]

/-- Helper: the own batch of a node bounds into its subtree maximum. -/
theorem nodeBatch_le_maxBatchProcess (ts : Option String)
    (pgs : Option (List RtProgram)) (cns : Option (List RtConnection))
    (children : Option (List Process)) :
    nodeBatch (.node ts pgs cns children) ≤
      maxBatchProcess (.node ts pgs cns children) := by
  rw [maxBatchProcess.eq_def]
  exact Nat.le_max_left _ _

/-- Helper: unfolding of maxBatchList on a cons cell. -/
theorem maxBatchList_cons (p : Process) (ps : List Process) :
    maxBatchList (p :: ps) = Nat.max (maxBatchProcess p) (maxBatchList ps) := by
  rw [maxBatchList.eq_def]

/-- Helper: the subtree maximum of the children bounds into the maximum of
    the parent node. -/
theorem maxBatchList_le_maxBatchProcess (ts : Option String)
    (pgs : Option (List RtProgram)) (cns : Option (List RtConnection))
    (cs : List Process) :
    maxBatchList cs ≤ maxBatchProcess (.node ts pgs cns (some cs)) := by
  rw [maxBatchProcess.eq_def]
  exact Nat.le_max_right _ _

mutual

/-- Helper: when a node is started with the frame strictly under the
    remaining limit, the frame after the node has at most limit minus one
    plus one subtree-maximal batch of lines. -/
theorem extractNode_len (p : Process) (indent : String) (rl : Int)
    (result : List String) (h : (result.length : Int) < rl) :
    ((extractNode p indent rl result).length : Int) ≤
      rl - 1 + maxBatchProcess p := by
  cases p with
  | node ts pgs cns children =>
    rw [extractNode_eq]
    have hb := nodeBatch_le_maxBatchProcess ts pgs cns children
    have hn := nodeOwnLines_length indent ts pgs cns children
    cases children with
    | none =>
      simp only [List.append_nil, List.length_append]
      push_cast
      omega
    | some cs =>
      have hml := maxBatchList_le_maxBatchProcess ts pgs cns cs
      have hloop := extractLoop_len cs (indent ++ "│  ")
        (rl - ((result ++ nodeOwnLines indent ts pgs cns).length : Int)) []
      simp only [List.length_nil, Nat.cast_zero] at hloop
      rcases le_max_iff.mp hloop with h0 | hc
      · simp only [List.length_append]
        push_cast
        push_cast [List.length_append] at h0
        omega
      · simp only [List.length_append]
        push_cast
        push_cast [List.length_append] at hc
        omega

/-- Helper: the extraction loop never grows the frame beyond limit minus one
    plus one subtree-maximal batch of lines. -/
theorem extractLoop_len (procs : List Process) (indent : String) (rl : Int)
    (result : List String) :
    ((extractLoop procs indent rl result).length : Int) ≤
      Max.max (result.length : Int) (rl - 1 + maxBatchList procs) := by
  cases procs with
  | nil =>
    rw [extractLoop]
    exact le_max_left _ _
  | cons p ps =>
    rw [extractLoop]
    by_cases hge : (result.length : Int) ≥ rl
    · rw [if_pos hge]
      exact le_max_left _ _
    · rw [if_neg hge]
      have h1 := extractNode_len p indent rl result (by omega)
      have h2 := extractLoop_len ps indent rl (extractNode p indent rl result)
      have hm1 : (maxBatchProcess p : Int) ≤ (maxBatchList (p :: ps) : Int) := by
        rw [maxBatchList_cons]
        exact_mod_cast Nat.le_max_left _ _
      have hm2 : (maxBatchList ps : Int) ≤ (maxBatchList (p :: ps) : Int) := by
        rw [maxBatchList_cons]
        exact_mod_cast Nat.le_max_right _ _
      refine le_trans h2 ?_
      rw [max_le_iff]
      constructor
      · rw [le_max_iff]; right; omega
      · rw [le_max_iff]; right; omega

end

/-- C1 counterexample: a single process node with two programs and no
    children reduced with limit 1 yields two formatted lines followed by the
    truncation notice with total count 1 (three lines in all), not exactly
    one formatted line plus the notice, and more than limit formatted lines
    precede the notice. -/
theorem reduceProcesses_two_programs_limit_one :
    reduceProcesses
        [Process.node none (some [⟨some "p1", none⟩, ⟨some "p2", none⟩]) none none] 1 =
      ["├─ [] p1: ", "├─ [] p2: ",
        "Processes limit(1) reached. Some processes were not included in the output. Total processes: 1"] ∧
    (reduceProcesses
        [Process.node none (some [⟨some "p1", none⟩, ⟨some "p2", none⟩]) none none] 1).length
      = 3 := ⟨rfl, rfl⟩

/-- C1 amended: for every process tree and limit L greater than 0, the
    reducer output is the extracted lines, optionally followed by one
    truncation notice reporting the unbounded full-tree count, and the lines
    before the optional notice number at most L minus 1 plus the largest
    per-node batch of program and connection lines (the limit is checked
    only before starting a node, so a started node emits its lines in full);
    for a single node with two programs and no children and limit 1 the
    reducer returns exactly two formatted lines plus the notice with total
    count 1. -/
theorem reduceProcesses_line_bound :
    ∀ (procs : List Process) (limit : Int), 0 < limit →
    (reduceProcesses procs limit = extractProcessTree procs "" limit ∨
      reduceProcesses procs limit =
        extractProcessTree procs "" limit ++
          [truncationNotice limit (countProcesses procs)]) ∧
    ((extractProcessTree procs "" limit).length : Int) ≤
      limit - 1 + maxBatchList procs ∧
    reduceProcesses
        [Process.node none (some [⟨some "p1", none⟩, ⟨some "p2", none⟩]) none none] 1 =
      ["├─ [] p1: ", "├─ [] p2: ", truncationNotice 1 1] := by
  intro procs limit hl
  refine ⟨?_, ?_, rfl⟩
  · unfold reduceProcesses
    by_cases hz : procs.length = 0 ∨ limit ≤ 0
    · rw [if_pos hz]
      rcases hz with h0 | h0
      · left
        have : procs = [] := List.length_eq_zero.mp h0
        subst this
        rw [extractProcessTree, extractLoop]
      · omega
    · rw [if_neg hz]
      by_cases ht : ((extractProcessTree procs "" limit).length : Int) ≥ limit
      · right
        simp [ht]
      · left
        simp [ht]
  · have hloop := extractLoop_len procs "" limit []
    simp only [List.length_nil, Nat.cast_zero] at hloop
    rw [extractProcessTree]
    rcases le_max_iff.mp hloop with h0 | hc
    · have : (0 : Int) ≤ maxBatchList procs := by positivity
      omega
    · exact hc

/-- Witness for reduceProcesses_line_bound at the two-program node and
    limit 1. -/
theorem reduceProcesses_line_bound_witness :
    ((extractProcessTree
        [Process.node none (some [⟨some "p1", none⟩, ⟨some "p2", none⟩]) none none]
        "" 1).length : Int) ≤
      1 - 1 + maxBatchList
        [Process.node none (some [⟨some "p1", none⟩, ⟨some "p2", none⟩]) none none] ∧
    reduceProcesses
        [Process.node none (some [⟨some "p1", none⟩, ⟨some "p2", none⟩]) none none] 1 =
      ["├─ [] p1: ", "├─ [] p2: ", truncationNotice 1 1] := by
  have h := reduceProcesses_line_bound
    [Process.node none (some [⟨some "p1", none⟩, ⟨some "p2", none⟩]) none none]
    1 (by decide)
  exact ⟨h.2.1, h.2.2⟩

/-- Helper: every insight id the baselines loop fetches a detail for comes
    from an entry whose truthy container id is among the requested ids. -/
theorem baselinesLoop_calls_spec (detail : String → CriDetail)
    (cids : List String) :
    ∀ (entries : List CriEntry) (criId : String),
    criId ∈ (baselinesLoop detail cids entries).1 →
    ∃ e ∈ entries, e.id = criId ∧
      ∃ cid, jsStrVal e.containerId = some cid ∧ cid ∈ cids := by
  intro entries
  induction entries with
  | nil =>
    intro c h
    simp [baselinesLoop] at h
  | cons e rest ih =>
    intro c h
    rw [baselinesLoop] at h
    cases hc : jsStrVal e.containerId with
    | none =>
      rw [hc] at h
      obtain ⟨e', he', hrest⟩ := ih c h
      exact ⟨e', List.mem_cons_of_mem _ he', hrest⟩
    | some cid =>
      rw [hc] at h
      dsimp only at h
      by_cases hin : cids.contains cid
      · rw [if_pos hin] at h
        cases hb : jsStrVal (detail e.id).baseline with
        | some b =>
          rw [hb] at h
          simp only [List.mem_cons] at h
          rcases h with h | h
          · exact ⟨e, List.mem_cons_self _ _, h.symm, cid, hc, List.elem_iff.mp hin⟩
          · obtain ⟨e', he', hrest⟩ := ih c h
            exact ⟨e', List.mem_cons_of_mem _ he', hrest⟩
        | none =>
          rw [hb] at h
          simp only [List.mem_cons] at h
          rcases h with h | h
          · exact ⟨e, List.mem_cons_self _ _, h.symm, cid, hc, List.elem_iff.mp hin⟩
          · obtain ⟨e', he', hrest⟩ := ih c h
            exact ⟨e', List.mem_cons_of_mem _ he', hrest⟩
      · rw [if_neg hin] at h
        obtain ⟨e', he', hrest⟩ := ih c h
        exact ⟨e', List.mem_cons_of_mem _ he', hrest⟩

/-- Helper: every key of the baselines loop result is a requested id. -/
theorem baselinesLoop_keys_sub (detail : String → CriDetail)
    (cids : List String) :
    ∀ (entries : List CriEntry) (k v : String),
    (k, v) ∈ (baselinesLoop detail cids entries).2 → k ∈ cids := by
  intro entries
  induction entries with
  | nil =>
    intro k v h
    simp [baselinesLoop] at h
  | cons e rest ih =>
    intro k v h
    rw [baselinesLoop] at h
    cases hc : jsStrVal e.containerId with
    | none =>
      rw [hc] at h
      exact ih k v h
    | some cid =>
      rw [hc] at h
      dsimp only at h
      by_cases hin : cids.contains cid
      · rw [if_pos hin] at h
        cases hb : jsStrVal (detail e.id).baseline with
        | some b =>
          rw [hb] at h
          simp only [List.mem_cons, Prod.mk.injEq] at h
          rcases h with ⟨hk, _⟩ | h
          · subst hk
            exact List.elem_iff.mp hin
          · exact ih k v h
        | none =>
          rw [hb] at h
          exact ih k v h
      · rw [if_neg hin] at h
        exact ih k v h

/-- Helper: the process-trees loop issues one detail call per insight, in
    order, keyed by insight id. -/
theorem processTreesLoop_calls (detail : String → CriDetail) (limit : Int) :
    ∀ (entries : List CriEntry),
    (processTreesLoop detail limit entries).1 = entries.map CriEntry.id := by
  intro entries
  induction entries with
  | nil => simp [processTreesLoop]
  | cons e rest ih =>
    rw [processTreesLoop]
    simp [ih]

/-- Helper: the keys of the process-trees loop result are the insight ids. -/
theorem processTreesLoop_keys (detail : String → CriDetail) (limit : Int) :
    ∀ (entries : List CriEntry),
    (processTreesLoop detail limit entries).2.map Prod.fst =
      entries.map CriEntry.id := by
  intro entries
  induction entries with
  | nil => simp [processTreesLoop]
  | cons e rest ih =>
    rw [processTreesLoop]
    simp [ih]

/-- C2 counterexample: the process-tree aggregator issues a detail call for
    an insight whose embedded container id is not among the caller-supplied
    identifiers. -/
theorem processTrees_fetch_without_matching_id :
    (getContainersProcessTrees ["c1"]
        (some [⟨"cri1", some ⟨some ⟨some "other"⟩⟩⟩])
        (fun _ => ⟨none, none⟩) 1000).1 = ["cri1"] ∧
    CriEntry.containerId ⟨"cri1", some ⟨some ⟨some "other"⟩⟩⟩ = some "other" ∧
    "other" ∉ (["c1"] : List String) := ⟨rfl, rfl, by decide⟩

/-- C2 amended: the baseline aggregator issues a detail call only for
    insights whose truthy embedded container id is a member of the supplied
    identifiers, while the process-tree aggregator issues one detail call
    per returned insight regardless of the identifiers list. -/
theorem aggregators_detail_call_gating :
    ∀ (cids : List String) (entries : List CriEntry)
      (detailB detailP : String → CriDetail) (limit : Int),
    (∀ criId, criId ∈ (getContainersBaselines cids (some entries) detailB).1 →
      ∃ e ∈ entries, e.id = criId ∧
        ∃ cid, jsStrVal e.containerId = some cid ∧ cid ∈ cids) ∧
    (cids ≠ [] →
      (getContainersProcessTrees cids (some entries) detailP limit).1 =
        entries.map CriEntry.id) := by
  intro cids entries dB dP limit
  constructor
  · intro criId h
    unfold getContainersBaselines at h
    by_cases hz : cids.length = 0
    · rw [if_pos hz] at h
      simp at h
    · rw [if_neg hz] at h
      dsimp only at h
      split at h
      · exact baselinesLoop_calls_spec dB cids entries criId h
      · exact baselinesLoop_calls_spec dB cids entries criId h
  · intro hne
    unfold getContainersProcessTrees
    rw [if_neg (by simpa [List.length_eq_zero] using hne)]
    dsimp only
    exact processTreesLoop_calls dP limit entries

/-- Witness for aggregators_detail_call_gating at a matching insight and at
    a one-insight process-tree call list. -/
theorem aggregators_detail_call_gating_witness :
    (∃ e ∈ [(⟨"cri1", some ⟨some ⟨some "c1"⟩⟩⟩ : CriEntry)], e.id = "cri1" ∧
      ∃ cid, jsStrVal e.containerId = some cid ∧ cid ∈ ["c1"]) ∧
    (getContainersProcessTrees ["c1"] (some [(⟨"cri2", none⟩ : CriEntry)])
        (fun _ => ⟨none, none⟩) 1000).1 =
      [(⟨"cri2", none⟩ : CriEntry)].map CriEntry.id := by
  have h := aggregators_detail_call_gating ["c1"] [⟨"cri1", some ⟨some ⟨some "c1"⟩⟩⟩]
    (fun _ => ⟨some "B", none⟩) (fun _ => ⟨none, none⟩) 1000
  have h2 := aggregators_detail_call_gating ["c1"] [⟨"cri2", none⟩]
    (fun _ => ⟨some "B", none⟩) (fun _ => ⟨none, none⟩) 1000
  exact ⟨h.1 "cri1" (by decide), h2.2 (by decide)⟩

/-- C3 counterexample: the process-tree aggregation keys its result by the
    insight id, which is not among the caller-supplied container ids even
    when the insight matches one of them. -/
theorem processTrees_key_is_insight_id :
    (getContainersProcessTrees ["c1"]
        (some [⟨"cri1", some ⟨some ⟨some "c1"⟩⟩⟩])
        (fun _ => ⟨none, none⟩) 1000).2 = .ok [("cri1", PTValue.empty)] ∧
    "cri1" ∉ (["c1"] : List String) := ⟨rfl, by decide⟩

/-- C3 amended: every key of a successful baseline aggregation is one of the
    caller-supplied container ids, while the keys of a successful
    process-tree aggregation are exactly the insight ids of the returned
    insights. -/
theorem aggregators_result_keys :
    ∀ (cids : List String) (entries : List CriEntry)
      (detailB detailP : String → CriDetail) (limit : Int),
    (∀ m, (getContainersBaselines cids (some entries) detailB).2 = .ok m →
      ∀ kv ∈ m, kv.1 ∈ cids) ∧
    (∀ m, (getContainersProcessTrees cids (some entries) detailP limit).2 = .ok m →
      m.map Prod.fst = entries.map CriEntry.id) := by
  intro cids entries dB dP limit
  constructor
  · intro m hm kv hkv
    unfold getContainersBaselines at hm
    by_cases hz : cids.length = 0
    · rw [if_pos hz] at hm
      simp at hm
    · rw [if_neg hz] at hm
      dsimp only at hm
      split at hm
      · simp at hm
      · simp only [Except.ok.injEq] at hm
        obtain ⟨k, v⟩ := kv
        subst hm
        exact baselinesLoop_keys_sub dB cids entries k v hkv
  · intro m hm
    unfold getContainersProcessTrees at hm
    by_cases hz : cids.length = 0
    · rw [if_pos hz] at hm
      simp at hm
    · rw [if_neg hz] at hm
      dsimp only at hm
      simp only [Except.ok.injEq] at hm
      subst hm
      exact processTreesLoop_keys dP limit entries

/-- Witness for aggregators_result_keys at a one-entry baseline result and a
    one-entry process-tree result. -/
theorem aggregators_result_keys_witness :
    ("c1", "B").1 ∈ ["c1"] ∧
    ([("cri1", PTValue.empty)].map Prod.fst =
      [(⟨"cri1", some ⟨some ⟨some "c1"⟩⟩⟩ : CriEntry)].map CriEntry.id) := by
  have h := aggregators_result_keys ["c1"] [⟨"cri1", some ⟨some ⟨some "c1"⟩⟩⟩]
    (fun _ => ⟨some "B", none⟩) (fun _ => ⟨none, none⟩) 1000
  refine ⟨h.1 [("c1", "B")] rfl ("c1", "B") (by decide),
    h.2 [("cri1", PTValue.empty)] rfl⟩

/-- C5: with a nonempty identifiers list, the baseline aggregation fails
    exactly when its accumulated map is empty, with the not-found error
    naming all requested identifiers, and otherwise returns the map; the
    process-tree aggregation always returns its possibly-empty map; and an
    entry whose fetched detail lacks a baseline payload contributes nothing
    to the map without aborting the remaining entries. -/
theorem aggregators_empty_map_policy :
    ∀ (cids : List String) (entries : List CriEntry)
      (detailB detailP : String → CriDetail) (limit : Int), cids ≠ [] →
    ((getContainersBaselines cids (some entries) detailB).2 =
      if (baselinesLoop detailB cids entries).2 = [] then
        Except.error ("No baselines found for any of the container_ids: " ++
          String.intercalate "," cids)
      else Except.ok (baselinesLoop detailB cids entries).2) ∧
    ((getContainersProcessTrees cids (some entries) detailP limit).2 =
      Except.ok (processTreesLoop detailP limit entries).2) ∧
    (∀ (e : CriEntry) (rest : List CriEntry) (cid : String),
      jsStrVal e.containerId = some cid → cids.contains cid = true →
      jsStrVal (detailB e.id).baseline = none →
      (baselinesLoop detailB cids (e :: rest)).2 =
        (baselinesLoop detailB cids rest).2) := by
  intro cids entries dB dP limit hne
  have hz : ¬ cids.length = 0 := by simpa [List.length_eq_zero] using hne
  refine ⟨?_, ?_, ?_⟩
  · unfold getContainersBaselines
    rw [if_neg hz]
    dsimp only
    by_cases hb : (baselinesLoop dB cids entries).2 = []
    · simp [hb]
    · simp [hb, List.length_eq_zero]
  · unfold getContainersProcessTrees
    rw [if_neg hz]
  · intro e rest cid hc hin hbase
    rw [baselinesLoop, hc]
    dsimp only
    rw [if_pos hin, hbase]

/-- Witness for aggregators_empty_map_policy: all baselines missing gives
    the not-found error naming the identifiers, the process-tree variant
    returns its map, and the missing-baseline entry is skipped. -/
theorem aggregators_empty_map_policy_witness :
    (getContainersBaselines ["c1"]
        (some [(⟨"cri1", some ⟨some ⟨some "c1"⟩⟩⟩ : CriEntry)])
        (fun _ => ⟨none, none⟩)).2 =
      Except.error "No baselines found for any of the container_ids: c1" ∧
    (getContainersProcessTrees ["c1"]
        (some [(⟨"cri1", some ⟨some ⟨some "c1"⟩⟩⟩ : CriEntry)])
        (fun _ => ⟨none, none⟩) 1000).2 =
      Except.ok [("cri1", PTValue.empty)] ∧
    (baselinesLoop (fun _ => ⟨none, none⟩) ["c1"]
        [(⟨"cri1", some ⟨some ⟨some "c1"⟩⟩⟩ : CriEntry)]).2 =
      (baselinesLoop (fun _ => ⟨none, none⟩) ["c1"] []).2 := by
  have h := aggregators_empty_map_policy ["c1"] [⟨"cri1", some ⟨some ⟨some "c1"⟩⟩⟩]
    (fun _ => ⟨none, none⟩) (fun _ => ⟨none, none⟩) 1000 (by decide)
  refine ⟨h.1.trans (by rfl), h.2.1.trans (by rfl),
    h.2.2 ⟨"cri1", some ⟨some ⟨some "c1"⟩⟩⟩ [] "c1" rfl (by decide) rfl⟩

end RadSec
